import Mathlib

/-!
Verification of the routing-server core.

This development shallowly embeds the parts of the repository that the
claims are about:

- the A-star search loop of src/src/astar.rs (the frontier ordering on
  SmallestCostHolder, the parent table kept as an insertion-ordered index
  map, the stale-entry rule, path reconstruction, and the loop itself);
- the tag-driven edge cost model and the successor/adjacency construction
  of src/src/data/node.rs (Node::successors, Node::calculate_cost_safe,
  Node::calculate_cost_fast, the adjacency built by Node::get, and the
  haversine distance function);
- the route entry point Node::route.

Modelling conventions: Rust i32/i64/usize values are modelled as Int or
Nat (the claims under study are not about wrap-around, and the quantities
involved stay far from the machine bounds); the f64/f32 multiplicative
tag modifiers are modelled as exact rationals; the haversine formula,
which the source evaluates in f64, is modelled by the same formula over
the reals, with the final `as i32` / `as i64` casts modelled as
truncation toward zero.  The database accessor Node::get is modelled as a
pure lookup (a function from ids to optional nodes), which is what the
cache-backed accessor provides to the search.  The concurrent worker pool
of astar is sequentialised: one step of the model pops one frontier entry
and processes it exactly as the worker closure of src/src/astar.rs does
(done-flag and channel plumbing, which only coordinate the workers, are
not part of the state).
-/

namespace Routing

/-- Three-way comparison of two integers, mirroring Rust Ord for i64. -/
def cmpInt (x y : Int) : Ordering :=
  if x < y then .lt else if x = y then .eq else .gt

/-- Frontier entry, struct SmallestCostHolder of src/src/astar.rs:
estimated total cost, accumulated cost, and the index of the node in the
parent table. -/
structure SmallestCostHolder where
  estimated_cost : Int
  cost : Int
  index : Nat
deriving DecidableEq

/-- The Ord implementation for SmallestCostHolder
(src/src/astar.rs lines 212-219): the comparison of estimated costs is
flipped, so that the Rust max-heap pops the smallest estimated cost
first, and equal estimated costs fall through to the plain comparison of
accumulated costs. -/
def cmpSCH (a b : SmallestCostHolder) : Ordering :=
  match cmpInt b.estimated_cost a.estimated_cost with
  | .eq => cmpInt a.cost b.cost
  | o => o

/-- The greatest element of a frontier, per cmpSCH.  Rust BinaryHeap pops
a greatest element; among elements comparing equal the choice Rust makes
is unspecified, and this model keeps the leftmost one. -/
def maxSCH : List SmallestCostHolder → Option SmallestCostHolder
  | [] => none
  | x :: xs => some (xs.foldl (fun cur y => if cmpSCH y cur = .gt then y else cur) x)

/-- Remove the first occurrence of an element from a list. -/
def removeFirst (e : SmallestCostHolder) :
    List SmallestCostHolder → List SmallestCostHolder
  | [] => []
  | x :: xs => if x = e then xs else x :: removeFirst e xs

/-- BinaryHeap::pop on the frontier: return a greatest element (per the
Ord of SmallestCostHolder) and the remaining contents. -/
def popMax (l : List SmallestCostHolder) :
    Option (SmallestCostHolder × List SmallestCostHolder) :=
  match maxSCH l with
  | none => none
  | some m => some (m, removeFirst m l)

/-- An entry of the adjacency list attached to a node
(src/src/data/node.rs, struct AdjacentNode).  The tag map of the OSM way
the edge comes from is modelled as an association list with unique keys
(first binding wins on lookup, as in HashMap). -/
structure AdjacentNode where
  node_id : Int
  tags : List (String × String)
  distance : Int
  intermediate_nodes : Option (List Int)
deriving DecidableEq

/-- AdjacentNode::has_tag_value (src/src/data/node.rs lines 27-32). -/
def AdjacentNode.has_tag_value (a : AdjacentNode) (key value : String) : Bool :=
  match a.tags.lookup key with
  | some v => v == value
  | none => false

/-- AdjacentNode::has_tag (src/src/data/node.rs lines 34-36). -/
def AdjacentNode.has_tag (a : AdjacentNode) (key : String) : Bool :=
  (a.tags.lookup key).isSome

/-- A graph node (src/src/data/node.rs, struct Node): id, coordinates in
decimicro degrees, attached adjacency list. -/
structure Node where
  id : Int
  lat : Int
  lon : Int
  adjacent_nodes : List AdjacentNode
deriving DecidableEq

/-- Degrees to radians, as f64::to_radians. -/
noncomputable def toRadians (x : ℝ) : ℝ := x * (Real.pi / 180)

/-- f64::atan2 (quadrant-aware arctangent), over the reals. -/
noncomputable def atan2 (y x : ℝ) : ℝ :=
  if 0 < x then Real.arctan (y / x)
  else if x = 0 then
    (if 0 < y then Real.pi / 2 else if y < 0 then -(Real.pi / 2) else 0)
  else if 0 ≤ y then Real.arctan (y / x) + Real.pi
  else Real.arctan (y / x) - Real.pi

/-- Rust cast of a nonnegative-or-negative real to an integer type
(truncation toward zero); the saturating behaviour at the type bounds is
irrelevant for the quantities involved here. -/
noncomputable def rustTruncR (x : ℝ) : Int :=
  if 0 ≤ x then ⌊x⌋ else -⌊-x⌋

/-- The haversine distance of src/src/data/node.rs lines 45-62
(fn distance), real-valued: coordinates in decimicro degrees are divided
by 10_000_000, converted to radians, and fed to the haversine formula on
a sphere of radius 6_371_000 meters. -/
noncomputable def distanceReal (lat1 lon1 lat2 lon2 : Int) : ℝ :=
  6371000 *
    (2 * atan2
      (Real.sqrt
        (Real.sin (toRadians ((lat2 : ℝ) / 10000000 - (lat1 : ℝ) / 10000000) / 2) *
          Real.sin (toRadians ((lat2 : ℝ) / 10000000 - (lat1 : ℝ) / 10000000) / 2) +
         Real.sin (toRadians ((lon2 : ℝ) / 10000000 - (lon1 : ℝ) / 10000000) / 2) *
          Real.sin (toRadians ((lon2 : ℝ) / 10000000 - (lon1 : ℝ) / 10000000) / 2) *
          Real.cos (toRadians ((lat1 : ℝ) / 10000000)) *
          Real.cos (toRadians ((lat2 : ℝ) / 10000000))))
      (Real.sqrt
        (1 -
          (Real.sin (toRadians ((lat2 : ℝ) / 10000000 - (lat1 : ℝ) / 10000000) / 2) *
            Real.sin (toRadians ((lat2 : ℝ) / 10000000 - (lat1 : ℝ) / 10000000) / 2) +
           Real.sin (toRadians ((lon2 : ℝ) / 10000000 - (lon1 : ℝ) / 10000000) / 2) *
            Real.sin (toRadians ((lon2 : ℝ) / 10000000 - (lon1 : ℝ) / 10000000) / 2) *
            Real.cos (toRadians ((lat1 : ℝ) / 10000000)) *
            Real.cos (toRadians ((lat2 : ℝ) / 10000000))))))

/-- fn distance of src/src/data/node.rs: the haversine value, truncated
by the final `as i32` cast. -/
noncomputable def distance (lat1 lon1 lat2 lon2 : Int) : Int :=
  rustTruncR (distanceReal lat1 lon1 lat2 lon2)

/-- Node::distance (src/src/data/node.rs lines 208-210). -/
noncomputable def Node.distance (self other_node : Node) : Int :=
  Routing.distance self.lat self.lon other_node.lat other_node.lon

/-- Rust cast of an f64/f32 value to i64 (truncation toward zero), on the
exact rationals that model the modifier arithmetic. -/
def rustTrunc (q : ℚ) : Int :=
  if 0 ≤ q then ⌊q⌋ else -⌊-q⌋

/-- Routing profile (enum Model, re-exported through src/src/route.rs and
matched on in Node::successors). -/
inductive Model where
  | Fast
  | Safe
deriving DecidableEq

/-- First statement of Node::calculate_cost_safe
(src/src/data/node.rs lines 304-306): an unconditional 0.8 discount for
route=bicycle, applied before the priority chain. -/
def safeRouteBicycle (a : AdjacentNode) (m : ℚ) : ℚ :=
  if a.has_tag_value "route" "bicycle" then m * (8/10) else m

/-- The priority chain of Node::calculate_cost_safe
(src/src/data/node.rs lines 308-359): first match wins. -/
def safeChain (a : AdjacentNode) (m : ℚ) : ℚ :=
  if a.has_tag_value "highway" "cycleway" || a.has_tag_value "bicycle" "designated" then
    m * (7/10)
  else if a.has_tag_value "bicycle" "yes"
      || a.has_tag_value "cycleway" "shared_lane"
      || a.has_tag_value "cycleway:left" "shared_lane"
      || a.has_tag_value "cycleway:right" "shared_lane"
      || a.has_tag_value "cycleway:both" "shared_lane"
      || a.has_tag_value "cycleway" "opposite_lane"
      || a.has_tag_value "cycleway:left" "opposite_lane"
      || a.has_tag_value "cycleway:right" "opposite_lane"
      || a.has_tag_value "cycleway:both" "opposite_lane"
      || a.has_tag_value "cycleway" "lane"
      || a.has_tag_value "cycleway:left" "lane"
      || a.has_tag_value "cycleway:right" "lane"
      || a.has_tag_value "cycleway:both" "lane"
      || a.has_tag_value "cycleway" "track"
      || a.has_tag_value "cycleway:left" "track"
      || a.has_tag_value "cycleway:right" "track"
      || a.has_tag_value "cycleway:both" "track"
      || a.has_tag_value "route" "bicycle" then
    m * (8/10)
  else if a.has_tag_value "highway" "footway" then
    (if !a.has_tag_value "bicycle" "no" then m * (11/10) else m * 10)
  else if a.has_tag_value "surface" "gravel" then m * (12/10)
  else if a.has_tag_value "surface" "dirt" then m * 5
  else if a.has_tag_value "bicycle" "dismount" then m * 3
  else if a.has_tag_value "highway" "tertiary" then m * 2
  else if a.has_tag_value "highway" "secondary" then m * 3
  else if a.has_tag_value "highway" "service" then m * (13/10)
  else if a.has_tag_value "highway" "path" then m * (16/10)
  else if a.has_tag_value "access" "customers" then m * (17/10)
  else if a.has_tag_value "highway" "primary" then m * 4
  else if a.has_tag_value "highway" "trunk" then m * 4
  else m

/-- The ferry multiplier shared by both cost functions
(src/src/data/node.rs lines 361-363 and 435-437). -/
def ferryStage (a : AdjacentNode) (m : ℚ) : ℚ :=
  if a.has_tag_value "route" "ferry" then m * 100 else m

/-- The maxspeed stage of Node::calculate_cost_safe
(src/src/data/node.rs lines 365-371).  The f32 parse of the tag value is
abstracted as a parameter: a parse failure leaves the cost unchanged, a
parsed speed above 50 applies a 1.2 penalty. -/
def maxspeedStage (parse : String → Option ℚ) (a : AdjacentNode) (m : ℚ) : ℚ :=
  match a.tags.lookup "maxspeed" with
  | some s =>
    match parse s with
    | some speed => if speed > 50 then m * (12/10) else m
    | none => m
  | none => m

/-- The modifier pipeline of Node::calculate_cost_safe
(src/src/data/node.rs lines 296-373), starting from the stored edge
distance a_node.distance, one stage per source statement. -/
def calculateCostSafeQ (parse : String → Option ℚ) (a : AdjacentNode) : ℚ :=
  maxspeedStage parse a (ferryStage a (safeChain a (safeRouteBicycle a (a.distance : ℚ))))

/-- Node::calculate_cost_safe, final value: the pipeline result truncated
by the `as i64` cast. -/
def calculateCostSafe (parse : String → Option ℚ) (a : AdjacentNode) : Int :=
  rustTrunc (calculateCostSafeQ parse a)

/-- First statement of Node::calculate_cost_fast
(src/src/data/node.rs lines 383-385). -/
def fastRouteBicycle (a : AdjacentNode) (m : ℚ) : ℚ :=
  if a.has_tag_value "route" "bicycle" then m * (8/10) else m

/-- The priority chain of Node::calculate_cost_fast
(src/src/data/node.rs lines 387-433): first match wins. -/
def fastChain (a : AdjacentNode) (m : ℚ) : ℚ :=
  if a.has_tag_value "highway" "cycleway" || a.has_tag_value "bicycle" "designated" then
    m * (8/10)
  else if a.has_tag_value "bicycle" "yes"
      || a.has_tag_value "cycleway" "shared_lane"
      || a.has_tag_value "cycleway:left" "shared_lane"
      || a.has_tag_value "cycleway:right" "shared_lane"
      || a.has_tag_value "cycleway:both" "shared_lane"
      || a.has_tag_value "cycleway" "opposite_lane"
      || a.has_tag_value "cycleway:left" "opposite_lane"
      || a.has_tag_value "cycleway:right" "opposite_lane"
      || a.has_tag_value "cycleway:both" "opposite_lane"
      || a.has_tag_value "cycleway" "lane"
      || a.has_tag_value "cycleway:left" "lane"
      || a.has_tag_value "cycleway:right" "lane"
      || a.has_tag_value "cycleway:both" "lane"
      || a.has_tag_value "cycleway" "track"
      || a.has_tag_value "cycleway:left" "track"
      || a.has_tag_value "cycleway:right" "track"
      || a.has_tag_value "cycleway:both" "track" then
    m * (9/10)
  else if a.has_tag_value "highway" "footway" then m * (11/10)
  else if a.has_tag_value "surface" "gravel" then m * (11/10)
  else if a.has_tag_value "surface" "dirt" then m * 5
  else if a.has_tag_value "bicycle" "dismount" then m * 3
  else if a.has_tag_value "highway" "tertiary" then m * (11/10)
  else if a.has_tag_value "highway" "secondary" then m * (12/10)
  else if a.has_tag_value "highway" "service" then m * (13/10)
  else if a.has_tag_value "highway" "path" then m * (13/10)
  else if a.has_tag_value "access" "customers" then m * (14/10)
  else if a.has_tag_value "highway" "primary" then m * (13/10)
  else if a.has_tag_value "highway" "trunk" then m * (13/10)
  else m

/-- The modifier pipeline of Node::calculate_cost_fast
(src/src/data/node.rs lines 375-440), starting from
self.distance(&other_node), whose already-truncated i32 value is passed
in as d. -/
def calculateCostFastQ (a : AdjacentNode) (d : Int) : ℚ :=
  ferryStage a (fastChain a (fastRouteBicycle a (d : ℚ)))

/-- Node::calculate_cost_fast, final value. -/
def calculateCostFast (a : AdjacentNode) (d : Int) : Int :=
  rustTrunc (calculateCostFastQ a d)

/-- The hard-exclusion filter at the head of the successor loop of
Node::successors (src/src/data/node.rs lines 265-273). -/
def excludedEdge (a : AdjacentNode) : Bool :=
  a.has_tag_value "highway" "motorway"
    || a.has_tag_value "highway" "motorway_link"
    || a.has_tag_value "bicycle" "no"
    || a.has_tag_value "highway" "steps"
    || a.has_tag_value "highway" "construction"
    || a.has_tag_value "access" "private"
    || a.has_tag_value "source" "approximative"
    || (!a.has_tag "highway" && !a.has_tag "bicycle")

/-- The loop body of Node::successors over the adjacency list
(src/src/data/node.rs lines 263-293).  The store models the cache-backed
Node::get (a failed fetch propagates, as the ? operator does); dfn models
Node::distance, used by the Fast cost for its base distance. -/
def successorsAux (store : Int → Option Node) (parse : String → Option ℚ)
    (dfn : Node → Node → Int) (model : Model) (self : Node) :
    List AdjacentNode → Option (List (Node × Int))
  | [] => some []
  | a :: rest =>
    let winter := false
    if excludedEdge a || (winter && a.has_tag_value "winter_service" "no") then
      successorsAux store parse dfn model self rest
    else
      match store a.node_id with
      | none => none
      | some other =>
        let move_cost : Int :=
          match model with
          | .Fast => calculateCostFast a (dfn self other)
          | .Safe => calculateCostSafe parse a
        match successorsAux store parse dfn model self rest with
        | none => none
        | some l => some ((other, move_cost) :: l)

/-- Node::successors (src/src/data/node.rs lines 258-294). -/
def Node.successors (self : Node) (store : Int → Option Node)
    (parse : String → Option ℚ) (dfn : Node → Node → Int) (model : Model) :
    Option (List (Node × Int)) :=
  successorsAux store parse dfn model self self.adjacent_nodes

/-- usize::max_value(), the sentinel parent index given to the start node
(src/src/astar.rs line 105). -/
def usizeMax : Nat := 18446744073709551615

/-- The parent table (FxIndexMap of src/src/astar.rs): an
insertion-ordered map from Node keys to (parent index, best known cost),
modelled as the list of its entries in insertion order; the position in
the list is the index the frontier refers to. -/
abbrev ParentTable := List (Node × Nat × Int)

/-- Index of a key in the parent table (IndexMap key lookup). -/
def indexOfNode (parents : ParentTable) (k : Node) : Option Nat :=
  parents.findIdx? (fun e => e.1 = k)

/-- Replace the entry at a position, keeping all others
(IndexMap value update through an Occupied entry). -/
def setIdx : ParentTable → Nat → (Node × Nat × Int) → ParentTable
  | [], _, _ => []
  | _ :: xs, 0, a => a :: xs
  | x :: xs, n + 1, a => x :: setIdx xs n a

/-- The iteration inside fn reverse_path (src/src/astar.rs lines
222-238): follow parent indices from a start index, collecting nodes,
until get_index fails.  The fuel argument bounds the walk; reverse_path
passes parents.length + 1, enough for any parent chain an actual search
builds (the source iterator would spin on a cyclic table, which the
search never constructs). -/
def walkParents (parents : ParentTable) : Nat → Nat → List Node
  | 0, _ => []
  | fuel + 1, i =>
    match parents.get? i with
    | none => []
    | some e => e.1 :: walkParents parents fuel e.2.1

/-- fn reverse_path: the collected chain, reversed to run start to goal. -/
def reversePath (parents : ParentTable) (start : Nat) : List Node :=
  (walkParents parents (parents.length + 1) start).reverse

/-- One iteration of the successor loop of the worker closure
(src/src/astar.rs lines 156-183): compute new_cost, then look the
successor up in the parent table.  A vacant entry records
(parent, new_cost) at a fresh index and pushes an estimate of
new_cost + successor.distance(&end); an occupied entry is updated only
when new_cost improves it, and its push estimates
new_cost + successor.distance(e.key()) — the distance of the successor
to the stored key, exactly as the source writes it. -/
def expandOne (dfn : Node → Node → Int) (endN : Node) (index : Nat) (cost : Int)
    (st : ParentTable × List SmallestCostHolder) (sc : Node × Int) :
    ParentTable × List SmallestCostHolder :=
  let new_cost := cost + sc.2
  match indexOfNode st.1 sc.1 with
  | none =>
    let h := dfn sc.1 endN
    let n := st.1.length
    (st.1 ++ [(sc.1, index, new_cost)],
      st.2 ++ [⟨new_cost + h, new_cost, n⟩])
  | some i =>
    match st.1.get? i with
    | none => st
    | some e =>
      if e.2.2 > new_cost then
        let h := dfn sc.1 e.1
        (setIdx st.1 i (e.1, index, new_cost),
          st.2 ++ [⟨new_cost + h, new_cost, i⟩])
      else st

/-- Result of processing one popped frontier entry. -/
inductive StepResult where
  | success (path : List Node) (cost : Int)
  | next (parents : ParentTable) (toSee : List SmallestCostHolder)
deriving DecidableEq

/-- The body of the worker closure of src/src/astar.rs (lines 132-184),
processing one popped (cost, index) pair: look the node up at its index,
declare success if it satisfies the goal check, otherwise discard the
entry as stale when its cost exceeds the recorded best, otherwise expand
every successor.  The goal check is a parameter because the repository
holds two call shapes: the fn astar of src/src/astar.rs hardwires the
coordinate comparison of line 140 (goalTest below), while Node::route
passes a closure. -/
def processEntry (dfn : Node → Node → Int) (succs : Node → List (Node × Int))
    (isGoal : Node → Bool) (endN : Node) (parents : ParentTable) (cost : Int)
    (index : Nat) (toSee : List SmallestCostHolder) : StepResult :=
  match parents.get? index with
  | none => .next parents toSee
  | some e =>
    if isGoal e.1 then
      .success (reversePath parents index) cost
    else if cost > e.2.2 then
      .next parents toSee
    else
      let r := (succs e.1).foldl (expandOne dfn endN index cost) (parents, toSee)
      .next r.1 r.2

/-- The goal check hardwired in fn astar
(src/src/astar.rs line 140): coordinate equality with the end node. -/
def goalTest (endN : Node) : Node → Bool :=
  fun node => node.lat == endN.lat && node.lon == endN.lon

/-- The sequentialised dispatch loop of fn astar: pop the greatest
frontier entry and process it; an empty frontier blocks the dispatcher on
rx_to_see_push.recv() (src/src/astar.rs lines 118-122), which in this
sequential model leaves the state unchanged.  The fuel bounds the number
of iterations; none means the loop has not produced a result within the
fuel. -/
def runAstar (dfn : Node → Node → Int) (succs : Node → List (Node × Int))
    (isGoal : Node → Bool) (endN : Node) :
    Nat → ParentTable → List SmallestCostHolder → Option (List Node × Int)
  | 0, _, _ => none
  | fuel + 1, parents, toSee =>
    match popMax toSee with
    | none => runAstar dfn succs isGoal endN fuel parents toSee
    | some (e, rest) =>
      match processEntry dfn succs isGoal endN parents e.cost e.index rest with
      | .success p c => some (p, c)
      | .next ps ts => runAstar dfn succs isGoal endN fuel ps ts

/-- The initial parent table of fn astar (src/src/astar.rs lines
101-105): the start node at index 0 with the usize::MAX sentinel parent
and cost zero. -/
def initParents (start : Node) : ParentTable := [(start, usizeMax, 0)]

/-- The initial frontier of fn astar (src/src/astar.rs lines 95-100). -/
def initToSee : List SmallestCostHolder := [⟨0, 0, 0⟩]

/-- Modelled from the spec: Node::route (src/src/data/node.rs lines
450-473) invokes an astar variant whose definition is not under src (the
call shape takes successor, heuristic and success closures); its loop is
modelled by runAstar above, the structure of the one astar in the
repository.  route passes the success closure
(now.elapsed() > 60 seconds) || (node.id == end.id) — deadlineElapsed
models the elapsed-time test — and wraps the astar result in a plain Ok
(the Result type of route has no DeadlineExceeded variant; its error side
is the boxed dynamic error, modelled as String). -/
def routeModel (dfn : Node → Node → Int) (succs : Node → List (Node × Int))
    (deadlineElapsed : Bool) (start endN : Node) (fuel : Nat) :
    Option (Except String (List Node × Int)) :=
  (runAstar dfn succs (fun node => deadlineElapsed || node.id == endN.id) endN
      fuel (initParents start) initToSee).map Except.ok

/-- The move cost the successor function assigns to a consecutive pair of
path nodes (zero when the pair is not adjacent; the paths the claims look
at only chain adjacent nodes). -/
def moveCostOf (succs : Node → List (Node × Int)) (a b : Node) : Int :=
  match (succs a).find? (fun p => p.1 = b) with
  | some p => p.2
  | none => 0

/-- Sum of per-edge move costs along consecutive nodes of a path. -/
def pathEdgeSum (succs : Node → List (Node × Int)) : List Node → Int
  | a :: b :: rest => moveCostOf succs a b + pathEdgeSum succs (b :: rest)
  | _ => 0

/-- get_positions (src/src/data/node.rs lines 11-16): the indices at
which an element occurs. -/
def getPositions (nodes : List Int) (id : Int) : List Nat :=
  (List.range nodes.length).filter (fun i => nodes.get? i = some id)

/-- Tag lookup with a default, as tags.get(k).unwrap_or(default). -/
def lookupD (tags : List (String × String)) (key dflt : String) : String :=
  (tags.lookup key).getD dflt

/-- The adjacency entries one occurrence of the node id contributes in
Node::get (src/src/data/node.rs lines 121-174): the following node
always becomes a neighbour; the previous node becomes one only when the
way is not tagged oneway=yes and not tagged oneway:bycicle=no (the
misspelt key is the source's).  coords models the per-id coordinate
fetches. -/
def adjFromPosition (dfn : Int → Int → Int → Int → Int) (coords : Int → Int × Int)
    (lat lon : Int) (tags : List (String × String)) (nodes : List Int)
    (i : Nat) : List AdjacentNode :=
  (match nodes.get? (i + 1) with
    | some next =>
      [⟨next, tags, dfn lat lon (coords next).1 (coords next).2, none⟩]
    | none => []) ++
  (if i > 0 then
    match nodes.get? (i - 1) with
    | some prev =>
      if !(lookupD tags "oneway" "" == "yes") then
        if !(lookupD tags "oneway:bycicle" "" == "no") then
          [⟨prev, tags, dfn lat lon (coords prev).1 (coords prev).2, none⟩]
        else []
      else []
    | none => []
  else [])

/-- The adjacency list one way (one row of the Node::get query)
contributes to the node with the given id: the per-occurrence entries,
concatenated in loop order. -/
def adjacentNodesFromWay (dfn : Int → Int → Int → Int → Int)
    (coords : Int → Int × Int) (lat lon selfId : Int)
    (tags : List (String × String)) (nodes : List Int) : List AdjacentNode :=
  ((getPositions nodes selfId).map (adjFromPosition dfn coords lat lon tags nodes)).flatten

/-- Order between parent-table states: the second extends the first
without losing entries, keeps every existing index bound to the same node
key, and never increases a recorded best cost. -/
def TableLe (p q : ParentTable) : Prop :=
  p.length ≤ q.length ∧
  ∀ i n pa c, p.get? i = some (n, pa, c) →
    ∃ pa2 c2, q.get? i = some (n, pa2, c2) ∧ c2 ≤ c

/-- C4 counterexample input: two frontier entries with equal estimated
total cost 5 and accumulated costs 3 and 1.  The claim says the entry
with accumulated cost 1 is popped first; the heap pops the one with
accumulated cost 3. -/
theorem c4_counterexample :
    popMax [⟨5, 3, 0⟩, ⟨5, 1, 1⟩] = some (⟨5, 3, 0⟩, [⟨5, 1, 1⟩]) ∧
    popMax [⟨5, 1, 1⟩, ⟨5, 3, 0⟩] = some (⟨5, 3, 0⟩, [⟨5, 1, 1⟩]) ∧
    (⟨5, 3, 0⟩ : SmallestCostHolder).estimated_cost =
      (⟨5, 1, 1⟩ : SmallestCostHolder).estimated_cost ∧
    (⟨5, 1, 1⟩ : SmallestCostHolder).cost < (⟨5, 3, 0⟩ : SmallestCostHolder).cost := by
  refine ⟨?_, ?_, rfl, by decide⟩ <;> decide

/-- C4 (amended): when two frontier entries have equal estimated total
cost, the Ord on SmallestCostHolder ranks the one with the larger
accumulated cost as the greater, so the max-heap pops it first. -/
theorem c4_tie_break_larger_cost (a b : SmallestCostHolder)
    (hest : a.estimated_cost = b.estimated_cost) (hcost : b.cost < a.cost) :
    cmpSCH a b = .gt ∧ cmpSCH b a = .lt ∧
    popMax [a, b] = some (a, [b]) ∧ popMax [b, a] = some (a, [b]) := by
  have hne : b ≠ a := by
    intro h
    rw [h] at hcost
    exact lt_irrefl _ hcost
  have h1 : cmpInt b.estimated_cost a.estimated_cost = .eq := by
    unfold cmpInt
    rw [hest, if_neg (lt_irrefl _), if_pos rfl]
  have h1s : cmpInt a.estimated_cost b.estimated_cost = .eq := by
    unfold cmpInt
    rw [hest, if_neg (lt_irrefl _), if_pos rfl]
  have h2 : cmpInt a.cost b.cost = .gt := by
    unfold cmpInt
    rw [if_neg (lt_asymm hcost), if_neg (ne_of_gt hcost)]
  have h3 : cmpInt b.cost a.cost = .lt := by
    unfold cmpInt
    rw [if_pos hcost]
  have hab : cmpSCH a b = .gt := by
    unfold cmpSCH
    rw [h1, h2]
  have hba : cmpSCH b a = .lt := by
    unfold cmpSCH
    rw [h1s, h3]
  refine ⟨hab, hba, ?_, ?_⟩
  · unfold popMax maxSCH
    simp only [List.foldl, hba]
    simp [removeFirst]
  · unfold popMax maxSCH
    simp only [List.foldl, hab]
    simp [removeFirst, hne]

/-- C4 witness: the tie-break theorem applied to the concrete entries
with estimated cost 7 and accumulated costs 4 and 2. -/
theorem c4_witness :
    (⟨7, 4, 0⟩ : SmallestCostHolder).estimated_cost =
      (⟨7, 2, 5⟩ : SmallestCostHolder).estimated_cost ∧
    (⟨7, 2, 5⟩ : SmallestCostHolder).cost < (⟨7, 4, 0⟩ : SmallestCostHolder).cost ∧
    (cmpSCH ⟨7, 4, 0⟩ ⟨7, 2, 5⟩ = .gt ∧ cmpSCH ⟨7, 2, 5⟩ ⟨7, 4, 0⟩ = .lt ∧
      popMax [⟨7, 4, 0⟩, ⟨7, 2, 5⟩] = some (⟨7, 4, 0⟩, [⟨7, 2, 5⟩]) ∧
      popMax [⟨7, 2, 5⟩, ⟨7, 4, 0⟩] = some (⟨7, 4, 0⟩, [⟨7, 2, 5⟩])) :=
  ⟨rfl, by decide, c4_tie_break_larger_cost ⟨7, 4, 0⟩ ⟨7, 2, 5⟩ rfl (by decide)⟩

theorem setIdx_length (l : ParentTable) (i : Nat) (a : Node × Nat × Int) :
    (setIdx l i a).length = l.length := by
  induction l generalizing i with
  | nil => rfl
  | cons x xs ih =>
    cases i with
    | zero => rfl
    | succ n => simp [setIdx, ih]

theorem get?_setIdx_self (l : ParentTable) (i : Nat) (a : Node × Nat × Int)
    (h : i < l.length) : (setIdx l i a).get? i = some a := by
  induction l generalizing i with
  | nil => simp at h
  | cons x xs ih =>
    cases i with
    | zero => rfl
    | succ n =>
      simp only [setIdx, List.get?]
      exact ih n (by simpa using h)

theorem get?_setIdx_ne (l : ParentTable) (i j : Nat) (a : Node × Nat × Int)
    (h : j ≠ i) : (setIdx l i a).get? j = l.get? j := by
  induction l generalizing i j with
  | nil => rfl
  | cons x xs ih =>
    cases i with
    | zero =>
      cases j with
      | zero => exact absurd rfl h
      | succ m => rfl
    | succ n =>
      cases j with
      | zero => rfl
      | succ m =>
        simp only [setIdx, List.get?]
        exact ih n m (fun hc => h (by rw [hc]))

theorem tableLe_refl (p : ParentTable) : TableLe p p := by
  refine ⟨le_refl _, ?_⟩
  intro i n pa c h
  exact ⟨pa, c, h, le_refl _⟩

theorem tableLe_trans {p q r : ParentTable} (h1 : TableLe p q) (h2 : TableLe q r) :
    TableLe p r := by
  refine ⟨le_trans h1.1 h2.1, ?_⟩
  intro i n pa c h
  obtain ⟨pa2, c2, hq, hc2⟩ := h1.2 i n pa c h
  obtain ⟨pa3, c3, hr, hc3⟩ := h2.2 i n pa2 c2 hq
  exact ⟨pa3, c3, hr, le_trans hc3 hc2⟩

theorem expandOne_tableLe (dfn : Node → Node → Int) (endN : Node) (index : Nat)
    (cost : Int) (st : ParentTable × List SmallestCostHolder) (sc : Node × Int) :
    TableLe st.1 (expandOne dfn endN index cost st sc).1 := by
  cases hidx : indexOfNode st.1 sc.1 with
  | none =>
    simp only [expandOne, hidx]
    refine ⟨by simp, ?_⟩
    intro i n pa c h
    have hi : i < st.1.length := by
      by_contra hge
      rw [List.get?_eq_none.mpr (le_of_not_lt hge)] at h
      exact Option.noConfusion h
    refine ⟨pa, c, ?_, le_refl _⟩
    rw [List.get?_append hi]
    exact h
  | some i0 =>
    cases hget : st.1.get? i0 with
    | none =>
      simp only [expandOne, hidx, hget]
      exact tableLe_refl _
    | some e =>
      by_cases himp : e.2.2 > cost + sc.2
      · simp only [expandOne, hidx, hget, if_pos himp]
        refine ⟨by rw [setIdx_length], ?_⟩
        intro i n pa c h
        by_cases hii : i = i0
        · subst hii
          have he : e = (n, pa, c) := by
            rw [hget] at h
            exact Option.some.inj h
          have hi : i < st.1.length := by
            by_contra hge
            rw [List.get?_eq_none.mpr (le_of_not_lt hge)] at h
            exact Option.noConfusion h
          refine ⟨index, cost + sc.2, ?_, ?_⟩
          · rw [get?_setIdx_self _ _ _ hi, he]
          · rw [he] at himp
            exact le_of_lt himp
        · refine ⟨pa, c, ?_, le_refl _⟩
          rw [get?_setIdx_ne _ _ _ _ hii]
          exact h
      · simp only [expandOne, hidx, hget, if_neg himp]
        exact tableLe_refl _

theorem foldl_expandOne_tableLe (dfn : Node → Node → Int) (endN : Node)
    (index : Nat) (cost : Int) (l : List (Node × Int))
    (st : ParentTable × List SmallestCostHolder) :
    TableLe st.1 ((l.foldl (expandOne dfn endN index cost) st)).1 := by
  induction l generalizing st with
  | nil => exact tableLe_refl _
  | cons a l ih =>
    simp only [List.foldl]
    exact tableLe_trans (expandOne_tableLe dfn endN index cost st a) (ih _)

theorem processEntry_next_tableLe (dfn : Node → Node → Int)
    (succs : Node → List (Node × Int)) (isGoal : Node → Bool) (endN : Node)
    (parents : ParentTable) (cost : Int) (index : Nat)
    (toSee : List SmallestCostHolder) (ps : ParentTable)
    (ts : List SmallestCostHolder)
    (h : processEntry dfn succs isGoal endN parents cost index toSee = .next ps ts) :
    TableLe parents ps := by
  unfold processEntry at h
  cases hg : parents.get? index with
  | none =>
    rw [hg] at h
    cases h
    exact tableLe_refl _
  | some e =>
    rw [hg] at h
    by_cases hgoal : isGoal e.1
    · simp [hgoal] at h
    · simp only [hgoal, Bool.false_eq_true, if_false] at h
      by_cases hst : cost > e.2.2
      · simp only [if_pos hst, StepResult.next.injEq] at h
        rw [← h.1]
        exact tableLe_refl _
      · simp only [if_neg hst, StepResult.next.injEq] at h
        rw [← h.1]
        exact foldl_expandOne_tableLe dfn endN index cost (succs e.1) (parents, toSee)

/-- C5: the parent table only grows under one loop iteration of the
search (no entry disappears, every index keeps its node key, and the
recorded best cost at an index never increases), and processing a
successor whose new cost does not strictly improve the recorded cost
leaves the whole state unchanged (the Occupied non-improving branch of
src/src/astar.rs lines 166-173). -/
theorem c5_table_invariants :
    (∀ (dfn : Node → Node → Int) (succs : Node → List (Node × Int))
        (isGoal : Node → Bool) (endN : Node) (parents : ParentTable)
        (cost : Int) (index : Nat) (toSee : List SmallestCostHolder)
        (ps : ParentTable) (ts : List SmallestCostHolder),
      processEntry dfn succs isGoal endN parents cost index toSee = .next ps ts →
      TableLe parents ps) ∧
    (∀ (dfn : Node → Node → Int) (endN : Node) (index : Nat) (cost : Int)
        (parents : ParentTable) (toSee : List SmallestCostHolder)
        (successor : Node) (move_cost : Int) (i : Nat) (e : Node × Nat × Int),
      indexOfNode parents successor = some i →
      parents.get? i = some e →
      ¬ (e.2.2 > cost + move_cost) →
      expandOne dfn endN index cost (parents, toSee) (successor, move_cost) =
        (parents, toSee)) := by
  constructor
  · exact processEntry_next_tableLe
  · intro dfn endN index cost parents toSee successor move_cost i e hidx hget hnot
    simp only [expandOne, hidx, hget, if_neg hnot]

/-- C5 witness: the loop-iteration invariant at a concrete one-entry
table with no successors, and the unchanged-state fact at a concrete
non-improving successor (recorded cost 3, new cost 0 + 5). -/
theorem c5_witness :
    TableLe [(⟨1, 0, 0, []⟩, usizeMax, 0)] [(⟨1, 0, 0, []⟩, usizeMax, 0)] ∧
    expandOne (fun _ _ => 0) ⟨2, 1, 1, []⟩ 0 0
        ([(⟨1, 0, 0, []⟩, usizeMax, 3)], []) (⟨1, 0, 0, []⟩, 5) =
      ([(⟨1, 0, 0, []⟩, usizeMax, 3)], []) :=
  ⟨c5_table_invariants.1 (fun _ _ => 0) (fun _ => []) (fun _ => false)
      ⟨2, 1, 1, []⟩ [(⟨1, 0, 0, []⟩, usizeMax, 0)] 0 0 []
      [(⟨1, 0, 0, []⟩, usizeMax, 0)] [] rfl,
    c5_table_invariants.2 (fun _ _ => 0) ⟨2, 1, 1, []⟩ 0 0
      [(⟨1, 0, 0, []⟩, usizeMax, 3)] [] ⟨1, 0, 0, []⟩ 5 0
      (⟨1, 0, 0, []⟩, usizeMax, 3) (by decide) rfl (by decide)⟩

/-- C1 counterexample state: the parent table holds the start (id 1) at
index 0 and the goal node (id 2, at the goal coordinates, recorded best
cost 5, reached by the single edge of cost 5) at index 1; the popped
frontier entry carries accumulated cost 7 for index 1, so it is stale
(7 exceeds the recorded 5).  The worker declares success anyway and
returns cost 7, which differs from the recorded best cost and from the
sum of the per-edge move costs (5) along the returned path — the goal
check of src/src/astar.rs line 140 runs before the stale check of line
150. -/
theorem c1_counterexample :
    processEntry Node.distance
        (fun n => if n.id = 1 then [(⟨2, 10, 10, []⟩, 5)] else [])
        (goalTest ⟨2, 10, 10, []⟩) ⟨2, 10, 10, []⟩
        [(⟨1, 0, 0, []⟩, usizeMax, 0), (⟨2, 10, 10, []⟩, 0, 5)] 7 1 [] =
      .success [⟨1, 0, 0, []⟩, ⟨2, 10, 10, []⟩] 7 ∧
    ([(⟨1, 0, 0, []⟩, usizeMax, 0), (⟨2, 10, 10, []⟩, 0, 5)] : ParentTable).get? 1 =
      some (⟨2, 10, 10, []⟩, 0, 5) ∧
    pathEdgeSum (fun n => if n.id = 1 then [(⟨2, 10, 10, []⟩, 5)] else [])
      [⟨1, 0, 0, []⟩, ⟨2, 10, 10, []⟩] = 5 ∧
    (5 : Int) < 7 ∧ (7 : Int) ≠ 5 :=
  ⟨rfl, rfl, rfl, by decide, by decide⟩

/-- C1 (amended): in the worker closure of fn astar the goal check comes
first: a popped entry whose node passes the goal test is immediately
declared a success, returning the path reconstructed from the parent
table and the popped accumulated cost, with no validation against the
node's recorded best cost; the stale-entry discard applies only to
entries whose node fails the goal test. -/
theorem c1_goal_check_precedes_stale (dfn : Node → Node → Int)
    (succs : Node → List (Node × Int)) (endN : Node) (parents : ParentTable)
    (cost : Int) (index : Nat) (toSee : List SmallestCostHolder)
    (node : Node) (pa : Nat) (c : Int)
    (h : parents.get? index = some (node, pa, c)) :
    (goalTest endN node = true →
      processEntry dfn succs (goalTest endN) endN parents cost index toSee =
        .success (reversePath parents index) cost) ∧
    (goalTest endN node = false → cost > c →
      processEntry dfn succs (goalTest endN) endN parents cost index toSee =
        .next parents toSee) := by
  constructor
  · intro hgoal
    simp only [processEntry, h, hgoal, if_true]
  · intro hgoal hstale
    simp only [processEntry, h, hgoal, Bool.false_eq_true, if_false, if_pos hstale]

/-- C1 witness: the amended theorem at a concrete one-entry parent table
whose node is at the goal coordinates, popped with accumulated cost 3. -/
theorem c1_witness :
    processEntry (fun _ _ => 0) (fun _ => [])
        (goalTest ⟨2, 10, 10, []⟩) ⟨2, 10, 10, []⟩
        [(⟨9, 10, 10, []⟩, usizeMax, 0)] 3 0 [] =
      .success (reversePath [(⟨9, 10, 10, []⟩, usizeMax, 0)] 0) 3 :=
  (c1_goal_check_precedes_stale (fun _ _ => 0) (fun _ => []) ⟨2, 10, 10, []⟩
      [(⟨9, 10, 10, []⟩, usizeMax, 0)] 3 0 [] ⟨9, 10, 10, []⟩ usizeMax 0 rfl).1
    (by decide)

theorem runAstar_empty_toSee (dfn : Node → Node → Int)
    (succs : Node → List (Node × Int)) (isGoal : Node → Bool) (endN : Node)
    (fuel : Nat) (parents : ParentTable) :
    runAstar dfn succs isGoal endN fuel parents [] = none := by
  induction fuel with
  | zero => rfl
  | succ n ih => simpa only [runAstar, popMax, maxSCH] using ih

/-- C2: with a start node (id 1, origin) that has no successors and a
goal at different coordinates, the frontier is exhausted after the first
pop, and from then on the dispatch loop never produces any result, for
any amount of fuel: the blocked-receive branch of src/src/astar.rs lines
118-122 loops forever, and no None is ever delivered (the send of a
failure result, line 151, is commented out). -/
theorem c2_exhaustion_never_returns (dfn : Node → Node → Int) (fuel : Nat) :
    runAstar dfn (fun _ => []) (goalTest ⟨2, 10000000, 10000000, []⟩)
        ⟨2, 10000000, 10000000, []⟩ fuel
        (initParents ⟨1, 0, 0, []⟩) initToSee = none := by
  cases fuel with
  | zero => rfl
  | succ n =>
    have hpop : popMax initToSee = some (⟨0, 0, 0⟩, []) := by decide
    have hstep : processEntry dfn (fun _ => [])
        (goalTest ⟨2, 10000000, 10000000, []⟩) ⟨2, 10000000, 10000000, []⟩
        (initParents ⟨1, 0, 0, []⟩) 0 0 [] =
        .next (initParents ⟨1, 0, 0, []⟩) [] := by
      simp [processEntry, initParents, goalTest, reversePath]
    simp only [runAstar, hpop, hstep]
    exact runAstar_empty_toSee _ _ _ _ n _

theorem distanceReal_self (lat lon : Int) : distanceReal lat lon lat lon = 0 := by
  unfold distanceReal toRadians atan2
  simp

theorem distance_self (lat lon : Int) : distance lat lon lat lon = 0 := by
  unfold distance rustTruncR
  rw [distanceReal_self]
  simp

theorem node_distance_self (n : Node) : Node.distance n n = 0 :=
  distance_self n.lat n.lon

theorem arctan_nonneg_of_nonneg (z : ℝ) (hz : 0 ≤ z) : 0 ≤ Real.arctan z := by
  have h := Real.arctan_strictMono.monotone hz
  rwa [Real.arctan_zero] at h

theorem atan2_nonneg (y x : ℝ) (hy : 0 ≤ y) : 0 ≤ atan2 y x := by
  unfold atan2
  split_ifs with h1 h2 h3 h4
  · exact arctan_nonneg_of_nonneg _ (div_nonneg hy (le_of_lt h1))
  · positivity
  · linarith
  · exact le_refl 0
  · have := Real.neg_pi_div_two_lt_arctan (y / x)
    have := Real.pi_pos
    linarith

theorem distanceReal_nonneg (lat1 lon1 lat2 lon2 : Int) :
    0 ≤ distanceReal lat1 lon1 lat2 lon2 := by
  unfold distanceReal
  have h := atan2_nonneg
    (Real.sqrt
      (Real.sin (toRadians ((lat2 : ℝ) / 10000000 - (lat1 : ℝ) / 10000000) / 2) *
        Real.sin (toRadians ((lat2 : ℝ) / 10000000 - (lat1 : ℝ) / 10000000) / 2) +
       Real.sin (toRadians ((lon2 : ℝ) / 10000000 - (lon1 : ℝ) / 10000000) / 2) *
        Real.sin (toRadians ((lon2 : ℝ) / 10000000 - (lon1 : ℝ) / 10000000) / 2) *
        Real.cos (toRadians ((lat1 : ℝ) / 10000000)) *
        Real.cos (toRadians ((lat2 : ℝ) / 10000000))))
    (Real.sqrt
      (1 -
        (Real.sin (toRadians ((lat2 : ℝ) / 10000000 - (lat1 : ℝ) / 10000000) / 2) *
          Real.sin (toRadians ((lat2 : ℝ) / 10000000 - (lat1 : ℝ) / 10000000) / 2) +
         Real.sin (toRadians ((lon2 : ℝ) / 10000000 - (lon1 : ℝ) / 10000000) / 2) *
          Real.sin (toRadians ((lon2 : ℝ) / 10000000 - (lon1 : ℝ) / 10000000) / 2) *
          Real.cos (toRadians ((lat1 : ℝ) / 10000000)) *
          Real.cos (toRadians ((lat2 : ℝ) / 10000000)))))
    (Real.sqrt_nonneg _)
  linarith

theorem distance_nonneg (lat1 lon1 lat2 lon2 : Int) :
    0 ≤ distance lat1 lon1 lat2 lon2 := by
  unfold distance rustTruncR
  rw [if_pos (distanceReal_nonneg lat1 lon1 lat2 lon2)]
  exact Int.floor_nonneg.mpr (distanceReal_nonneg lat1 lon1 lat2 lon2)

theorem distanceReal_pole : distanceReal 0 0 900000000 0 = 3185500 * Real.pi := by
  have e90 : ((900000000 : Int) : ℝ) / 10000000 - ((0 : Int) : ℝ) / 10000000 = 90 := by
    norm_num
  have e0 : ((0 : Int) : ℝ) / 10000000 - ((0 : Int) : ℝ) / 10000000 = 0 := by
    norm_num
  have e0b : ((0 : Int) : ℝ) / 10000000 = 0 := by norm_num
  unfold distanceReal
  rw [e90, e0, e0b]
  have er1 : toRadians 90 / 2 = Real.pi / 4 := by
    unfold toRadians
    ring
  have er2 : toRadians 0 / 2 = 0 := by
    unfold toRadians
    ring
  rw [er1, er2, Real.sin_zero, Real.sin_pi_div_four]
  have ea : Real.sqrt 2 / 2 * (Real.sqrt 2 / 2) +
      0 * 0 * Real.cos (toRadians 0) *
        Real.cos (toRadians (((900000000 : Int) : ℝ) / 10000000)) = 1 / 2 := by
    have h2 : Real.sqrt 2 * Real.sqrt 2 = 2 :=
      Real.mul_self_sqrt (by norm_num)
    nlinarith [h2]
  rw [ea]
  have eb : (1 : ℝ) - 1 / 2 = 1 / 2 := by norm_num
  rw [eb]
  have hx : (0 : ℝ) < Real.sqrt (1 / 2) := Real.sqrt_pos.mpr (by norm_num)
  unfold atan2
  rw [if_pos hx, div_self (ne_of_gt hx), Real.arctan_one]
  ring

theorem distance_pole : 1 ≤ distance 0 0 900000000 0 := by
  unfold distance rustTruncR
  rw [distanceReal_pole]
  have hpos : (0 : ℝ) ≤ 3185500 * Real.pi := by positivity
  rw [if_pos hpos]
  refine Int.le_floor.mpr ?_
  have := Real.pi_gt_three
  push_cast
  nlinarith

/-- C3: in the Occupied branch of the successor loop the pushed estimate
adds successor.distance(e.key()) — the distance of the successor node
(here id 2, at the origin) to itself, which is zero — so improving the
recorded cost of the successor from 10 to 5 pushes the frontier entry
(5, 5, 1) with no heuristic contribution, although the haversine
distance from the successor to the goal (at latitude 90) is at least one
meter. -/
theorem c3_occupied_heuristic_is_zero :
    expandOne Node.distance ⟨99, 900000000, 0, []⟩ 0 0
        ([(⟨1, 0, 0, []⟩, usizeMax, 0), (⟨2, 0, 0, []⟩, 0, 10)], [])
        (⟨2, 0, 0, []⟩, 5) =
      (setIdx [(⟨1, 0, 0, []⟩, usizeMax, 0), (⟨2, 0, 0, []⟩, 0, 10)] 1
          (⟨2, 0, 0, []⟩, 0, 5),
        [⟨5, 5, 1⟩]) ∧
    1 ≤ Node.distance ⟨2, 0, 0, []⟩ ⟨99, 900000000, 0, []⟩ := by
  constructor
  · have hidx : indexOfNode
        [(⟨1, 0, 0, []⟩, usizeMax, 0), (⟨2, 0, 0, []⟩, 0, 10)] ⟨2, 0, 0, []⟩ =
        some 1 := by decide
    have hget : ([(⟨1, 0, 0, []⟩, usizeMax, 0), (⟨2, 0, 0, []⟩, 0, 10)] :
        ParentTable).get? 1 = some (⟨2, 0, 0, []⟩, 0, 10) := rfl
    simp only [expandOne, hidx, hget]
    rw [if_pos (by decide : (10 : Int) > 0 + 5)]
    rw [node_distance_self]
    norm_num
  · exact distance_pole

theorem safeRouteBicycle_nonneg (a : AdjacentNode) (m : ℚ) (hm : 0 ≤ m) :
    0 ≤ safeRouteBicycle a m := by
  unfold safeRouteBicycle
  positivity

theorem safeChain_nonneg (a : AdjacentNode) (m : ℚ) (hm : 0 ≤ m) :
    0 ≤ safeChain a m := by
  unfold safeChain
  positivity

theorem ferryStage_nonneg (a : AdjacentNode) (m : ℚ) (hm : 0 ≤ m) :
    0 ≤ ferryStage a m := by
  unfold ferryStage
  positivity

theorem maxspeedStage_nonneg (parse : String → Option ℚ) (a : AdjacentNode)
    (m : ℚ) (hm : 0 ≤ m) : 0 ≤ maxspeedStage parse a m := by
  unfold maxspeedStage
  cases hls : a.tags.lookup "maxspeed" with
  | none => simp only [hls]; exact hm
  | some s =>
    simp only [hls]
    cases hps : parse s with
    | none => simp only [hps]; exact hm
    | some speed =>
      simp only [hps]
      positivity

theorem fastRouteBicycle_nonneg (a : AdjacentNode) (m : ℚ) (hm : 0 ≤ m) :
    0 ≤ fastRouteBicycle a m := by
  unfold fastRouteBicycle
  positivity

theorem fastChain_nonneg (a : AdjacentNode) (m : ℚ) (hm : 0 ≤ m) :
    0 ≤ fastChain a m := by
  unfold fastChain
  positivity

theorem rustTrunc_nonneg (q : ℚ) (hq : 0 ≤ q) : 0 ≤ rustTrunc q := by
  unfold rustTrunc
  rw [if_pos hq]
  exact Int.floor_nonneg.mpr hq

/-- C8: when the stored edge distance is the haversine of any pair of
endpoint coordinates, the Safe move cost is a nonnegative integer, and
the Fast move cost — whose base is the haversine Node::distance of the
two endpoint nodes — is a nonnegative integer, for every tag set and
every outcome of the maxspeed parse. -/
theorem c8_cost_nonneg (parse : String → Option ℚ) (a : AdjacentNode)
    (lat1 lon1 lat2 lon2 : Int) (n m : Node)
    (h : a.distance = distance lat1 lon1 lat2 lon2) :
    0 ≤ calculateCostSafe parse a ∧
    0 ≤ calculateCostFast a (Node.distance n m) := by
  constructor
  · unfold calculateCostSafe calculateCostSafeQ
    refine rustTrunc_nonneg _ ?_
    refine maxspeedStage_nonneg _ _ _ ?_
    refine ferryStage_nonneg _ _ ?_
    refine safeChain_nonneg _ _ ?_
    refine safeRouteBicycle_nonneg _ _ ?_
    rw [h]
    exact_mod_cast distance_nonneg lat1 lon1 lat2 lon2
  · unfold calculateCostFast calculateCostFastQ
    refine rustTrunc_nonneg _ ?_
    refine ferryStage_nonneg _ _ ?_
    refine fastChain_nonneg _ _ ?_
    refine fastRouteBicycle_nonneg _ _ ?_
    exact_mod_cast distance_nonneg n.lat n.lon m.lat m.lon

/-- C8 witness: the nonnegativity theorem at an adjacency entry whose
stored distance is the haversine of the origin with itself (zero), with
empty tags and a parse that always fails. -/
theorem c8_witness :
    (⟨2, [], 0, none⟩ : AdjacentNode).distance = distance 0 0 0 0 ∧
    (0 ≤ calculateCostSafe (fun _ => none) ⟨2, [], 0, none⟩ ∧
      0 ≤ calculateCostFast ⟨2, [], 0, none⟩
        (Node.distance ⟨1, 0, 0, []⟩ ⟨1, 0, 0, []⟩)) :=
  ⟨(distance_self 0 0).symm,
    c8_cost_nonneg (fun _ => none) ⟨2, [], 0, none⟩ 0 0 0 0 ⟨1, 0, 0, []⟩
      ⟨1, 0, 0, []⟩ ((distance_self 0 0).symm)⟩

theorem has_tag_value_ne (a : AdjacentNode) (k v w : String)
    (h : a.has_tag_value k v = true) (hvw : v ≠ w) :
    a.has_tag_value k w = false := by
  unfold AdjacentNode.has_tag_value at h ⊢
  cases hls : a.tags.lookup k with
  | none => rfl
  | some x =>
    rw [hls] at h
    simp only [beq_iff_eq] at h
    subst h
    simp [hvw]

/-- C10: in the Safe profile an edge tagged route=bicycle that does not
match the higher-priority cycleway/designated discount gets the 0.8
modifier twice — once from the unconditional pre-chain statement, once
as the matching chain branch — so, with no maxspeed tag present (the
route key cannot simultaneously be ferry), the cost is the floor of
distance times 0.8 times 0.8. -/
theorem c10_route_bicycle_double_discount (parse : String → Option ℚ)
    (a : AdjacentNode)
    (hroute : a.has_tag_value "route" "bicycle" = true)
    (hcyc : a.has_tag_value "highway" "cycleway" = false)
    (hdes : a.has_tag_value "bicycle" "designated" = false)
    (hms : a.tags.lookup "maxspeed" = none)
    (hd : 0 ≤ a.distance) :
    calculateCostSafe parse a = ⌊(a.distance : ℚ) * (8/10) * (8/10)⌋ := by
  have hferry : a.has_tag_value "route" "ferry" = false :=
    has_tag_value_ne a "route" "bicycle" "ferry" hroute (by decide)
  have h1 : safeRouteBicycle a (a.distance : ℚ) = (a.distance : ℚ) * (8/10) := by
    unfold safeRouteBicycle
    rw [if_pos hroute]
  have h2 : safeChain a ((a.distance : ℚ) * (8/10)) =
      (a.distance : ℚ) * (8/10) * (8/10) := by
    unfold safeChain
    rw [if_neg (by simp [hcyc, hdes])]
    rw [if_pos (by simp [hroute])]
  have h3 : ferryStage a ((a.distance : ℚ) * (8/10) * (8/10)) =
      (a.distance : ℚ) * (8/10) * (8/10) := by
    unfold ferryStage
    rw [if_neg (by simp [hferry])]
  have h4 : maxspeedStage parse a ((a.distance : ℚ) * (8/10) * (8/10)) =
      (a.distance : ℚ) * (8/10) * (8/10) := by
    unfold maxspeedStage
    simp only [hms]
  unfold calculateCostSafe calculateCostSafeQ
  rw [h1, h2, h3, h4]
  unfold rustTrunc
  rw [if_pos (by positivity)]

/-- C10 witness: the double-discount theorem at a concrete edge tagged
route=bicycle with stored distance 100: the Safe cost is 64, the floor
of 100 times 0.64, not the single-discount 80. -/
theorem c10_witness :
    (⟨9, [("route", "bicycle")], 100, none⟩ : AdjacentNode).has_tag_value
        "route" "bicycle" = true ∧
    (⟨9, [("route", "bicycle")], 100, none⟩ : AdjacentNode).has_tag_value
        "highway" "cycleway" = false ∧
    (⟨9, [("route", "bicycle")], 100, none⟩ : AdjacentNode).has_tag_value
        "bicycle" "designated" = false ∧
    (⟨9, [("route", "bicycle")], 100, none⟩ : AdjacentNode).tags.lookup
        "maxspeed" = none ∧
    calculateCostSafe (fun _ => none) ⟨9, [("route", "bicycle")], 100, none⟩ =
      ⌊((100 : Int) : ℚ) * (8/10) * (8/10)⌋ :=
  ⟨by decide, by decide, by decide, by decide,
    c10_route_bicycle_double_discount (fun _ => none)
      ⟨9, [("route", "bicycle")], 100, none⟩ (by decide) (by decide) (by decide)
      (by decide) (by decide)⟩

theorem reversePath_init (start : Node) : reversePath (initParents start) 0 = [start] := by
  have hnone : ([(start, usizeMax, 0)] : ParentTable).get? usizeMax = none := by
    apply List.get?_eq_none.mpr
    simp [usizeMax]
  show (walkParents (initParents start) ((initParents start).length + 1) 0).reverse = [start]
  have h2 : walkParents (initParents start) ((initParents start).length + 1) 0 = [start] := by
    show walkParents [(start, usizeMax, 0)] (Nat.succ (Nat.succ 0)) 0 = [start]
    unfold walkParents
    simp only [List.get?, hnone]
    unfold walkParents
    simp only [hnone]
  rw [h2]
  rfl

/-- C9 (amended): when the deadline test in the success closure of
Node::route is already true, the very first popped frontier entry — the
start node — passes the goal check, astar returns (path = just the start
node, cost 0) as a normal result, and route wraps it in a plain Ok: the
deadline-forced outcome is indistinguishable from an ordinary successful
route, and no DeadlineExceeded value exists to be returned. -/
theorem c9_deadline_plain_success (dfn : Node → Node → Int)
    (succs : Node → List (Node × Int)) (start endN : Node) (fuel : Nat) :
    routeModel dfn succs true start endN (fuel + 1) =
      some (Except.ok ([start], 0)) := by
  have hpop : popMax initToSee = some (⟨0, 0, 0⟩, []) := by decide
  have hget : (initParents start).get? 0 = some (start, usizeMax, 0) := rfl
  unfold routeModel
  simp only [runAstar, hpop]
  have hstep : processEntry dfn succs (fun node => true || node.id == endN.id)
      endN (initParents start) 0 0 [] =
      .success (reversePath (initParents start) 0) 0 := by
    simp only [processEntry, hget, Bool.true_or, if_true]
  simp only [hstep, reversePath_init]
  rfl

/-- C9 counterexample: a deadline-elapsed search from the start node
(id 1, origin) toward a different goal node (id 2) returns
some (Ok ([start], 0)) — the plain success shape — although the start is
not the goal; the claim demanded a distinct DeadlineExceeded outcome. -/
theorem c9_counterexample :
    routeModel Node.distance (fun _ => []) true ⟨1, 0, 0, []⟩
        ⟨2, 10000000, 10000000, []⟩ 1 =
      some (Except.ok ([⟨1, 0, 0, []⟩], 0)) ∧
    (⟨1, 0, 0, []⟩ : Node).id ≠ (⟨2, 10000000, 10000000, []⟩ : Node).id ∧
    goalTest ⟨2, 10000000, 10000000, []⟩ ⟨1, 0, 0, []⟩ = false :=
  ⟨rfl, by decide, by decide⟩

theorem adjFromPosition_oneway (dfn : Int → Int → Int → Int → Int)
    (coords : Int → Int × Int) (lat lon : Int) (tags : List (String × String))
    (nodes : List Int) (i : Nat) (hone : lookupD tags "oneway" "" = "yes") :
    adjFromPosition dfn coords lat lon tags nodes i =
      match nodes.get? (i + 1) with
      | some next =>
        [⟨next, tags, dfn lat lon (coords next).1 (coords next).2, none⟩]
      | none => [] := by
  have hc : (lookupD tags "oneway" "" == "yes") = true := by
    rw [hone]
    rfl
  unfold adjFromPosition
  by_cases hi : i > 0
  · simp only [hc, Bool.not_true, Bool.false_eq_true, if_false, if_pos hi]
    cases nodes.get? (i - 1) <;> simp
  · simp only [if_neg hi, List.append_nil]

/-- C6: for a way tagged oneway=yes whose node list has A immediately
followed by B (and in which no occurrence of B is immediately followed
by A, so that the way itself defines no B-to-A edge), the adjacency the
way contributes to B never contains A — whether or not the
reverse-permission tag is present — while the adjacency it contributes
to A contains B. -/
theorem c6_oneway_directionality (dfn : Int → Int → Int → Int → Int)
    (coords : Int → Int × Int) (lat lon : Int) (tags : List (String × String))
    (nodes : List Int) (A B : Int) (k : Nat)
    (hA : nodes.get? k = some A) (hB : nodes.get? (k + 1) = some B)
    (hone : lookupD tags "oneway" "" = "yes")
    (_hrev : tags.lookup "oneway:bicycle" ≠ some "no")
    (hnoBA : ∀ j, j < nodes.length → nodes.get? j = some B →
      nodes.get? (j + 1) ≠ some A) :
    (∀ a ∈ adjacentNodesFromWay dfn coords lat lon B tags nodes,
      a.node_id ≠ A) ∧
    (∃ a ∈ adjacentNodesFromWay dfn coords lat lon A tags nodes,
      a.node_id = B) := by
  constructor
  · intro a ha
    unfold adjacentNodesFromWay at ha
    obtain ⟨l, hl, hal⟩ := List.mem_flatten.mp ha
    obtain ⟨i, hi, rfl⟩ := List.mem_map.mp hl
    have hi2 := List.mem_filter.mp hi
    have hiB : nodes.get? i = some B := by
      have := hi2.2
      simpa using this
    have hilt : i < nodes.length := List.mem_range.mp hi2.1
    rw [adjFromPosition_oneway dfn coords lat lon tags nodes i hone] at hal
    cases hnext : nodes.get? (i + 1) with
    | none => rw [hnext] at hal; cases hal
    | some next =>
      rw [hnext] at hal
      have ha2 : a = ⟨next, tags, dfn lat lon (coords next).1 (coords next).2,
          none⟩ := by
        cases hal with
        | head => rfl
        | tail _ h => cases h
      rw [ha2]
      intro hcontra
      refine hnoBA i hilt hiB ?_
      rw [hnext]
      exact congrArg some hcontra
  · have hk : k < nodes.length := by
      by_contra h
      rw [List.get?_eq_none.mpr (le_of_not_lt h)] at hA
      exact Option.noConfusion hA
    refine ⟨⟨B, tags, dfn lat lon (coords B).1 (coords B).2, none⟩, ?_, rfl⟩
    unfold adjacentNodesFromWay
    apply List.mem_flatten.mpr
    refine ⟨adjFromPosition dfn coords lat lon tags nodes k, ?_, ?_⟩
    · apply List.mem_map_of_mem
      apply List.mem_filter.mpr
      refine ⟨List.mem_range.mpr hk, ?_⟩
      exact decide_eq_true hA
    · rw [adjFromPosition_oneway dfn coords lat lon tags nodes k hone, hB]
      exact List.mem_singleton.mpr rfl

/-- C6 witness: the directionality theorem on the way [1, 2, 3] tagged
oneway=yes and highway=residential, with A = 1 and B = 2. -/
theorem c6_witness :
    (∀ a ∈ adjacentNodesFromWay (fun _ _ _ _ => 0) (fun _ => (0, 0)) 0 0 2
        [("oneway", "yes"), ("highway", "residential")] [1, 2, 3],
      a.node_id ≠ 1) ∧
    (∃ a ∈ adjacentNodesFromWay (fun _ _ _ _ => 0) (fun _ => (0, 0)) 0 0 1
        [("oneway", "yes"), ("highway", "residential")] [1, 2, 3],
      a.node_id = 2) :=
  c6_oneway_directionality (fun _ _ _ _ => 0) (fun _ => (0, 0)) 0 0
    [("oneway", "yes"), ("highway", "residential")] [1, 2, 3] 1 2 0
    (by decide) (by decide) (by decide) (by decide)
    (by decide)

theorem successorsAux_sound (store : Int → Option Node)
    (parse : String → Option ℚ) (dfn : Node → Node → Int) (model : Model)
    (self : Node) :
    ∀ (rest : List AdjacentNode) (l : List (Node × Int)),
      successorsAux store parse dfn model self rest = some l →
      ∀ p ∈ l, ∃ a ∈ rest, excludedEdge a = false ∧ store a.node_id = some p.1 := by
  intro rest
  induction rest with
  | nil =>
    intro l h p hp
    cases h
    cases hp
  | cons a rest ih =>
    intro l h p hp
    by_cases hex : excludedEdge a = true
    · rw [show successorsAux store parse dfn model self (a :: rest) =
          successorsAux store parse dfn model self rest from by
        simp only [successorsAux, hex, Bool.true_or, if_true]] at h
      obtain ⟨a2, ha2, hx⟩ := ih l h p hp
      exact ⟨a2, List.mem_cons_of_mem a ha2, hx⟩
    · have hexf : excludedEdge a = false := by simpa using hex
      simp only [successorsAux, hexf, Bool.false_and, Bool.or_false,
        Bool.false_eq_true, if_false] at h
      cases hst : store a.node_id with
      | none =>
        rw [hst] at h
        exact absurd h (by simp)
      | some other =>
        rw [hst] at h
        cases hr : successorsAux store parse dfn model self rest with
        | none =>
          rw [hr] at h
          exact absurd h (by simp)
        | some l2 =>
          rw [hr] at h
          simp only [Option.some.injEq] at h
          rw [← h] at hp
          cases hp with
          | head => exact ⟨a, List.mem_cons_self a rest, hexf, hst⟩
          | tail _ hp2 =>
            obtain ⟨a2, ha2, hx⟩ := ih l2 hr p hp2
            exact ⟨a2, List.mem_cons_of_mem a ha2, hx⟩

/-- C7: every pair yielded by Node::successors originates from an
adjacency entry that passes the hard-exclusion filter: its tag set does
not carry highway=motorway, highway=motorway-link, bicycle=no,
highway=steps, highway=construction, access=private or
source=approximative, and it carries a highway tag or a bicycle tag.
Such an entry also determines the yielded neighbour through the store. -/
theorem c7_successors_exclusions (store : Int → Option Node)
    (parse : String → Option ℚ) (dfn : Node → Node → Int) (model : Model)
    (self : Node) (l : List (Node × Int))
    (h : Node.successors self store parse dfn model = some l) :
    ∀ p ∈ l, ∃ a ∈ self.adjacent_nodes,
      store a.node_id = some p.1 ∧
      a.has_tag_value "highway" "motorway" = false ∧
      a.has_tag_value "highway" "motorway_link" = false ∧
      a.has_tag_value "bicycle" "no" = false ∧
      a.has_tag_value "highway" "steps" = false ∧
      a.has_tag_value "highway" "construction" = false ∧
      a.has_tag_value "access" "private" = false ∧
      a.has_tag_value "source" "approximative" = false ∧
      (a.has_tag "highway" = true ∨ a.has_tag "bicycle" = true) := by
  intro p hp
  obtain ⟨a, ha, hex, hst⟩ :=
    successorsAux_sound store parse dfn model self self.adjacent_nodes l h p hp
  refine ⟨a, ha, hst, ?_⟩
  unfold excludedEdge at hex
  simp only [Bool.or_eq_false_iff, Bool.and_eq_false_iff, Bool.not_eq_false] at hex
  obtain ⟨⟨⟨⟨⟨⟨⟨h1, h2⟩, h3⟩, h4⟩, h5⟩, h6⟩, h7⟩, h8⟩ := hex
  refine ⟨h1, h2, h3, h4, h5, h6, h7, ?_⟩
  rcases h8 with hh | hh
  · exact Or.inl (by simpa using hh)
  · exact Or.inr (by simpa using hh)

/-- C7 witness: the exclusion-soundness theorem on a node with a single
highway=residential adjacency that survives the filter with Safe cost 7. -/
theorem c7_witness :
    Node.successors ⟨1, 0, 0, [⟨3, [("highway", "residential")], 7, none⟩]⟩
        (fun i => if i = 3 then some ⟨3, 5, 5, []⟩ else none) (fun _ => none)
        (fun _ _ => 0) .Safe = some [(⟨3, 5, 5, []⟩, 7)] ∧
    (∀ p ∈ [((⟨3, 5, 5, []⟩ : Node), (7 : Int))],
      ∃ a ∈ ([⟨3, [("highway", "residential")], 7, none⟩] : List AdjacentNode),
        (fun i => if i = 3 then some (⟨3, 5, 5, []⟩ : Node) else none) a.node_id =
          some p.1 ∧
        a.has_tag_value "highway" "motorway" = false ∧
        a.has_tag_value "highway" "motorway_link" = false ∧
        a.has_tag_value "bicycle" "no" = false ∧
        a.has_tag_value "highway" "steps" = false ∧
        a.has_tag_value "highway" "construction" = false ∧
        a.has_tag_value "access" "private" = false ∧
        a.has_tag_value "source" "approximative" = false ∧
        (a.has_tag "highway" = true ∨ a.has_tag "bicycle" = true)) :=
  ⟨by decide,
    c7_successors_exclusions
      (fun i => if i = 3 then some ⟨3, 5, 5, []⟩ else none) (fun _ => none)
      (fun _ _ => 0) .Safe ⟨1, 0, 0, [⟨3, [("highway", "residential")], 7, none⟩]⟩
      [(⟨3, 5, 5, []⟩, 7)] (by decide)⟩

end Routing
